import Mathlib

set_option maxHeartbeats 1000000
set_option maxRecDepth 4000

/-!
Shallow embedding of the validator scripts of the `claude-plugins` repository:
`validate_markdown.py`, `validate_java8.py`, `validate_marketplace.py` and
`validate_recipe.py`.  Pure functions are translated directly; file-system
access and external subprocesses are passed in as explicit parameters;
Python exceptions are modelled with `Except`.
-/

/-! ## Character classes (Python `str` predicates)

The scripts call the Unicode-aware Python `str.islower`, `str.isupper`,
`str.isdigit`, `str.lower` and `\s`/`\w` regex classes.  The embedding models
them on the Latin-1 range (code points below U+0100), which covers the ASCII
and accented-letter inputs the repository deals with. -/

def pyIsSpace (c : Char) : Bool :=
  c == ' ' || c == '\t' || c == '\n' || c == '\r' || c == '\x0b' || c == '\x0c'

/-- Python `str.islower` for a single character, on the Latin-1 range. -/
def pyIsLowerChar (c : Char) : Bool :=
  ('a' ≤ c && c ≤ 'z') ||
  (0xDF ≤ c.toNat && c.toNat ≤ 0xFF && c.toNat != 0xF7) ||
  c.toNat == 0xB5 || c.toNat == 0xAA || c.toNat == 0xBA

/-- Python `str.isupper` for a single character, on the Latin-1 range. -/
def pyIsUpperChar (c : Char) : Bool :=
  ('A' ≤ c && c ≤ 'Z') ||
  (0xC0 ≤ c.toNat && c.toNat ≤ 0xDE && c.toNat != 0xD7)

/-- Python `str.isdigit` for a single character, restricted to ASCII. -/
def pyIsDigitChar (c : Char) : Bool :=
  '0' ≤ c && c ≤ '9'

/-- Python `str.lower` for a single character, on the Latin-1 range. -/
def pyToLowerChar (c : Char) : Char :=
  if 'A' ≤ c && c ≤ 'Z' then Char.ofNat (c.toNat + 32)
  else if 0xC0 ≤ c.toNat && c.toNat ≤ 0xDE && c.toNat != 0xD7 then Char.ofNat (c.toNat + 32)
  else c

/-- The regex class `\w`, restricted to ASCII. -/
def isWordChar (c : Char) : Bool :=
  c.isAlpha || c.isDigit || c == '_'

/-! ## String helpers (Python `str` methods) -/

def chStrip (cs : List Char) : List Char :=
  ((cs.dropWhile pyIsSpace).reverse.dropWhile pyIsSpace).reverse

/-- Python `str.strip()` (whitespace from both ends). -/
def pyStrip (s : String) : String := String.mk (chStrip s.data)

/-- Python `str.lower()`. -/
def pyLowerStr (s : String) : String := String.mk (s.data.map pyToLowerChar)

/-- Python `s.startswith(pre)`. -/
def pyStartsWith (s pre : String) : Bool := List.isPrefixOf pre.data s.data

/-- Python `s.endswith(suf)`. -/
def pyEndsWith (s suf : String) : Bool :=
  List.isPrefixOf suf.data.reverse s.data.reverse

/-- Substring occurrence test on character lists. -/
def chContains : List Char → List Char → Bool
  | needle, [] => needle.isEmpty
  | needle, c :: cs => List.isPrefixOf needle (c :: cs) || chContains needle cs

/-- Python `needle in hay` for strings (substring test). -/
def pySubstr (needle hay : String) : Bool := chContains needle.data hay.data

/-- Python `s.lstrip("./")`: strips any leading `.` and `/` characters. -/
def pyLStripDotSlash (s : String) : String :=
  String.mk (s.data.dropWhile (fun c => c == '.' || c == '/'))

/-- Path joining, the `/` operator of `pathlib`, on string paths. -/
def joinPath (a b : String) : String := a ++ "/" ++ b

/-- Python `str.split()` (split on whitespace runs, dropping empty pieces):
the accumulator holds the current word reversed. -/
def wsWordsGo : List Char → List Char → List String
  | acc, [] => if acc.isEmpty then [] else [String.mk acc.reverse]
  | acc, c :: cs =>
    if pyIsSpace c then
      if acc.isEmpty then wsWordsGo [] cs
      else String.mk acc.reverse :: wsWordsGo [] cs
    else wsWordsGo (c :: acc) cs

def pySplitWs (s : String) : List String := wsWordsGo [] s.data

/-- Python `file.readlines()`: pieces keep their trailing newline. -/
def readlinesGo : List Char → List Char → List String
  | acc, [] => if acc.isEmpty then [] else [String.mk acc.reverse]
  | acc, c :: cs =>
    if c == '\n' then String.mk (acc.reverse ++ ['\n']) :: readlinesGo [] cs
    else readlinesGo (c :: acc) cs

def pyReadlines (s : String) : List String := readlinesGo [] s.data

/-- Python `str.splitlines()` (terminators dropped; `\n`, `\r\n`, `\r`). -/
def splitlinesGo : List Char → List Char → List String
  | acc, [] => if acc.isEmpty then [] else [String.mk acc.reverse]
  | acc, '\r' :: '\n' :: cs => String.mk acc.reverse :: splitlinesGo [] cs
  | acc, '\r' :: cs => String.mk acc.reverse :: splitlinesGo [] cs
  | acc, '\n' :: cs => String.mk acc.reverse :: splitlinesGo [] cs
  | acc, c :: cs => splitlinesGo (c :: acc) cs

def pySplitlines (s : String) : List String := splitlinesGo [] s.data

/-- Models `pathlib.PurePath.suffix` of a string path: the extension of the final
component, empty when the only dot is leading or trailing. -/
def pathSuffix (p : String) : String :=
  let name := (p.data.reverse.takeWhile (fun c => c != '/')).reverse
  let afterDot := name.reverse.takeWhile (fun c => c != '.')
  if afterDot.length == name.length then ""
  else if afterDot.length == 0 then ""
  else if afterDot.length + 1 == name.length then ""
  else String.mk ('.' :: afterDot.reverse)

/-! ## Regex scanning primitives

The scripts use `re.match`/`re.search` with a handful of fixed patterns whose
character classes are pairwise disjoint at every `+`/`*` boundary, so greedy
maximal-munch scanning reproduces the backtracking semantics exactly.  Each
pattern is translated into a deterministic scanner; `re.search` is the
disjunction of the scanner over every start position. -/

/-- Consume a literal; return the remaining characters. -/
def litAt : List Char → List Char → Option (List Char)
  | [], cs => some cs
  | _, [] => none
  | p :: ps, c :: cs => if c == p then litAt ps cs else none

def expectChar (c : Char) : List Char → Option (List Char)
  | x :: xs => if x == c then some xs else none
  | [] => none

def wsRun (cs : List Char) : Nat := (cs.takeWhile pyIsSpace).length

def wordRun (cs : List Char) : Nat := (cs.takeWhile isWordChar).length

/-- Models `\s+`. -/
def wsPlus (cs : List Char) : Option (List Char) :=
  if wsRun cs == 0 then none else some (cs.drop (wsRun cs))

/-- Models `\s*`. -/
def wsStar (cs : List Char) : List Char := cs.drop (wsRun cs)

/-- Models `\w+`. -/
def wordPlus (cs : List Char) : Option (List Char) :=
  if wordRun cs == 0 then none else some (cs.drop (wordRun cs))

/-- The word-boundary `\b`, given the character preceding the position. -/
def atWordBoundary : Option Char → Bool
  | none => true
  | some c => !isWordChar c

/-- Models `re.search` for a pattern `f` that matches at a position given the
preceding character: try every start position left to right. -/
def scanSearch (f : Option Char → List Char → Bool) : Option Char → List Char → Bool
  | prev, [] => f prev []
  | prev, c :: cs => f prev (c :: cs) || scanSearch f (some c) cs

def reSearch (f : Option Char → List Char → Bool) (s : String) : Bool :=
  scanSearch f none s.data

/-- Leftmost match of a capturing scanner. -/
def scanFirstStr (f : List Char → Option String) : List Char → Option String
  | [] => f []
  | c :: cs =>
    match f (c :: cs) with
    | some r => some r
    | none => scanFirstStr f cs

/-! ## `validate_markdown.py` -/

structure MdError where
  line_num : Nat
  error_type : String
  message : String
deriving DecidableEq, Repr

/-- The regex `^(#{1,6})\s+(.+)` of `_check_heading_hierarchy`.  Greedy
`\s+` followed by `(.+)` backtracks to the largest whitespace prefix whose
following character exists and is not a newline; `greedyDotIdx t m` finds
that split point `i ∈ [1, m]`. -/
def greedyDotIdx (t : List Char) : Nat → Option Nat
  | 0 => none
  | i + 1 =>
    match t.drop (i + 1) with
    | [] => greedyDotIdx t i
    | c :: _ => if c == '\n' then greedyDotIdx t i else some (i + 1)

/-- Models `re.match` of `^(#{1,6})\s+(.+)` on the line, returning
(`len(group(1))`, `group(2)`). -/
def headingMatch (line : String) : Option (Nat × String) :=
  let cs := line.data
  let n := (cs.takeWhile (fun c => c == '#')).length
  if n == 0 || n > 6 then none
  else
    let t := cs.drop n
    let m := (t.takeWhile pyIsSpace).length
    match greedyDotIdx t m with
    | none => none
    | some i => some (n, String.mk ((t.drop i).takeWhile (fun c => c != '\n')))

def smallWords : List String :=
  ["a", "an", "the", "and", "but", "or", "for", "nor", "on", "at", "to",
   "from", "by", "with"]

/-- Models `MarkdownValidator._is_title_case`.  The float comparison
`capitalized_count > len(words[1:]) * 0.5` is exact for these integer
operands, i.e. `2 * capitalized_count > len(words[1:])`. -/
def isTitleCase (text : String) : Bool :=
  let words := pySplitWs text
  if words.length < 3 || pyStartsWith text "`" then false
  else
    let rest := words.drop 1
    let capCount := (rest.filter (fun w =>
      !w.isEmpty && pyIsUpperChar (w.data.headD ' ') &&
        !(smallWords.contains (pyLowerStr w)))).length
    decide (2 * capCount > rest.length)

def mdSkipMsg (prevLevel level : Nat) : String :=
  "Heading level skipped (h" ++ toString prevLevel ++ " -> h" ++ toString level ++
    "). Use h" ++ toString (prevLevel + 1) ++ " instead."

def mdTitleMsg (title : String) : String :=
  "Heading appears to use title case. Use sentence case instead: \x27" ++ title ++ "\x27"

/-- Loop body of `_check_heading_hierarchy`: 1-based line counter and the
running `prev_level` (0 initially, updated after each heading line). -/
def chhGo : Nat → Nat → List String → List MdError
  | _, _, [] => []
  | i, prevLevel, line :: rest =>
    match headingMatch line with
    | some (level, rawTitle) =>
      (if level > prevLevel + 1 then
        [⟨i, "HEADING_SKIP", mdSkipMsg prevLevel level⟩] else []) ++
      (if isTitleCase (pyStrip rawTitle) && level ≤ 3 then
        [⟨i, "TITLE_CASE", mdTitleMsg (pyStrip rawTitle)⟩] else []) ++
      chhGo (i + 1) level rest
    | none => chhGo (i + 1) prevLevel rest

def checkHeadingHierarchy (lines : List String) : List MdError := chhGo 1 0 lines

def isFenceLine (line : String) : Bool := pyStartsWith (pyStrip line) "```"

def mdLangMsg : String :=
  "Code block missing language identifier (e.g., ```python, ```bash, ```markdown)"

def mdUnclosedMsg : String := "Code block opened but never closed"

/-- Loop body of `_check_code_blocks`: toggling `in_code_block` on fence
marker lines; the unclosed-block error is appended after the loop. -/
def ccbGo : Nat → Bool → Nat → List String → List MdError
  | _, true, startLine, [] => [⟨startLine, "CODE_BLOCK_UNCLOSED", mdUnclosedMsg⟩]
  | _, false, _, [] => []
  | i, inBlock, startLine, line :: rest =>
    if isFenceLine line then
      if !inBlock then
        let fenceContent := pyStrip (String.mk ((pyStrip line).data.drop 3))
        (if fenceContent == "" then [⟨i, "CODE_BLOCK_LANG", mdLangMsg⟩] else []) ++
          ccbGo (i + 1) true i rest
      else ccbGo (i + 1) false startLine rest
    else ccbGo (i + 1) inBlock startLine rest

def checkCodeBlocks (lines : List String) : List MdError := ccbGo 1 false 0 lines

/-- A match of `\[([^\]]+)\]\(([^)]+)\)` anchored at the current position,
returning the two groups and the rest of the line. -/
def linkAt : List Char → Option (String × String × List Char)
  | '[' :: rest =>
    let t := rest.takeWhile (fun c => c != ']')
    if t.isEmpty then none
    else
      match rest.drop t.length with
      | ']' :: '(' :: rest2 =>
        let u := rest2.takeWhile (fun c => c != ')')
        if u.isEmpty then none
        else
          match rest2.drop u.length with
          | ')' :: rest3 => some (String.mk t, String.mk u, rest3)
          | _ => none
      | _ => none
  | _ => none

/-- Models `re.finditer` for the link pattern: leftmost matches, resuming after each
match; the fuel is the remaining length (every step consumes at least one
character). -/
def findLinksGo : Nat → List Char → List (String × String)
  | 0, _ => []
  | _, [] => []
  | fuel + 1, c :: cs =>
    match linkAt (c :: cs) with
    | some (t, u, rest) => (t, u) :: findLinksGo fuel rest
    | none => findLinksGo fuel cs

def findLinks (cs : List Char) : List (String × String) := findLinksGo cs.length cs

def badLinkTexts : List String := ["click here", "here", "read more", "more"]

def mdLinkTextMsg (t : String) : String :=
  "Non-descriptive link text: \x27" ++ t ++
    "\x27. Use descriptive text that tells where the link goes."

def mdLinkEmptyMsg : String := "Link has empty text"

def mdLinkEmptyUrlMsg (t : String) : String :=
  "Link \x27" ++ t ++ "\x27 has empty URL"

def linkErrors (i : Nat) : List (String × String) → List MdError
  | [] => []
  | (t, u) :: rest =>
    (if badLinkTexts.contains (pyLowerStr t) then
      [⟨i, "LINK_TEXT", mdLinkTextMsg t⟩] else []) ++
    (if pyStrip t == "" then [⟨i, "LINK_EMPTY", mdLinkEmptyMsg⟩] else []) ++
    (if pyStrip u == "" then [⟨i, "LINK_EMPTY_URL", mdLinkEmptyUrlMsg t⟩] else []) ++
    linkErrors i rest

def clGo : Nat → List String → List MdError
  | _, [] => []
  | i, line :: rest => linkErrors i (findLinks line.data) ++ clGo (i + 1) rest

def checkLinks (lines : List String) : List MdError := clGo 1 lines

def mdNoH1Msg : String :=
  "Document should have at least one top-level heading (# Title)"

def mdMultiH1Msg (n : Nat) : String :=
  "Document has " ++ toString n ++
    " top-level headings. Consider using only one H1 as the document title."

def checkBasicStructure (lines : List String) : List MdError :=
  let h1Count := (lines.filter (fun l => pyStartsWith l "# ")).length
  (if !(lines.any (fun l => pyStartsWith l "# ")) then
    [⟨1, "NO_H1", mdNoH1Msg⟩] else []) ++
  (if h1Count > 1 then [⟨1, "MULTIPLE_H1", mdMultiH1Msg h1Count⟩] else [])

/-- Stable insertion for `sorted(self.errors, key=lambda e: e.line_num)`:
a stable sort by the same key produces the same list as the Python one. -/
def mdInsert (e : MdError) : List MdError → List MdError
  | [] => [e]
  | x :: xs => if e.line_num ≤ x.line_num then e :: x :: xs else x :: mdInsert e xs

def mdSortErrors : List MdError → List MdError
  | [] => []
  | x :: xs => mdInsert x (mdSortErrors xs)

/-- Models `MarkdownValidator.validate` on successfully read lines. -/
def mdValidate (lines : List String) : List MdError :=
  mdSortErrors (checkHeadingHierarchy lines ++ checkCodeBlocks lines ++
    checkLinks lines ++ checkBasicStructure lines)

def mdFileErrorMsg (e : String) : String := "Cannot read file: " ++ e

/-- Models `MarkdownValidator.validate` including the read step: a read exception
short-circuits with the single `FILE_ERROR` diagnostic. -/
def mdValidateRun : Except String (List String) → List MdError
  | .error e => [⟨0, "FILE_ERROR", mdFileErrorMsg e⟩]
  | .ok lines => mdValidate lines

/-- File-system collaborator for the `main` of `validate_markdown.py`. -/
structure MdFS where
  pathExists : String → Bool
  isFile : String → Bool
  isDir : String → Bool
  readLines : String → Except String (List String)
  mdFiles : String → List String

def mdValidateFileErrors (fs : MdFS) (p : String) : List MdError :=
  mdValidateRun (fs.readLines p)

/-- The `main` of `validate_markdown.py`: the returned `Nat` is the process exit
code (`sys.exit`). -/
def mdMain (argv : List String) (fs : MdFS) : Nat :=
  match argv with
  | [_, p] =>
    if !(fs.pathExists p) then 1
    else if fs.isFile p then
      if pathSuffix p == ".md" then
        if (mdValidateFileErrors fs p).isEmpty then 0 else 1
      else 1
    else if fs.isDir p then
      if ((fs.mdFiles p).filter
          (fun f => !(mdValidateFileErrors fs f).isEmpty)).isEmpty then 0 else 1
    else 1
  | _ => 1

/-! ## `validate_java8.py` -/

structure J8Violation where
  file : String
  line : Nat
  message : String
  code : String
deriving DecidableEq, Repr

/-- Models `\bvar\s+\w+\s*=` at a position. -/
def varAssignAt (prev : Option Char) (cs : List Char) : Bool :=
  atWordBoundary prev &&
    (litAt "var".data cs >>= wsPlus >>= wordPlus >>=
      fun r => expectChar '=' (wsStar r)).isSome

/-- After `{`, the tail of `[^}]*->`: an arrow occurring before any `}`. -/
def arrowBeforeBrace : List Char → Bool
  | [] => false
  | '}' :: _ => false
  | '-' :: '>' :: _ => true
  | _ :: cs => arrowBeforeBrace cs

/-- Models `switch\s*\([^)]+\)\s*\{[^}]*->` at a position (without the leading
`\b`, shared with the unanchored variant in `validate_recipe.py`). -/
def switchArrowCore (cs : List Char) : Bool :=
  match litAt "switch".data cs with
  | none => false
  | some r1 =>
    match expectChar '(' (wsStar r1) with
    | none => false
    | some r2 =>
      let n := (r2.takeWhile (fun c => c != ')')).length
      if n == 0 then false
      else
        match expectChar ')' (r2.drop n) with
        | none => false
        | some r3 =>
          match expectChar '{' (wsStar r3) with
          | none => false
          | some r4 => arrowBeforeBrace r4

/-- Models `\bswitch\s*\([^)]+\)\s*\{[^}]*->` at a position. -/
def switchArrowAt (prev : Option Char) (cs : List Char) : Bool :=
  atWordBoundary prev && switchArrowCore cs

/-- Models `"""` at a position. -/
def textBlockAt (_ : Option Char) (cs : List Char) : Bool :=
  (litAt "\"\"\"".data cs).isSome

/-- Models `\binstanceof\s+\w+\s+\w+\s*[^;{]*(?:\{|;)` at a position: after the
second identifier has consumed at least one word character, `\s*[^;{]*`
absorbs anything up to the first `;` or `{`, so the pattern succeeds exactly
when such a terminator occurs later in the text. -/
def instanceofJ8At (prev : Option Char) (cs : List Char) : Bool :=
  atWordBoundary prev &&
    (match litAt "instanceof".data cs >>= wsPlus >>= wordPlus >>= wsPlus with
     | some (c :: rest) =>
       isWordChar c && rest.any (fun d => d == ';' || d == '{')
     | _ => false)

/-- Models `\brecord\s+\w+\s*\(` at a position. -/
def recordParenAt (prev : Option Char) (cs : List Char) : Bool :=
  atWordBoundary prev &&
    (litAt "record".data cs >>= wsPlus >>= wordPlus >>=
      fun r => expectChar '(' (wsStar r)).isSome

/-- Models `\bsealed\s+(?:class|interface)` at a position. -/
def sealedAt (prev : Option Char) (cs : List Char) : Bool :=
  atWordBoundary prev &&
    (match litAt "sealed".data cs >>= wsPlus with
     | some r => (litAt "class".data r).isSome || (litAt "interface".data r).isSome
     | none => false)

/-- Models `Java8Validator.PATTERNS` in dict order, paired with their messages. -/
def j8Patterns : List ((Option Char → List Char → Bool) × String) :=
  [(varAssignAt, "Java 10+ feature: local variable type inference (var)"),
   (switchArrowAt, "Java 14+ feature: switch expressions with arrows"),
   (textBlockAt, "Java 15+ feature: text blocks (triple quotes)"),
   (instanceofJ8At, "Java 16+ feature: pattern matching for instanceof"),
   (recordParenAt, "Java 16+ feature: record types"),
   (sealedAt, "Java 17+ feature: sealed classes")]

/-- The comment-skipping test of `Java8Validator.validate_file`. -/
def j8CommentSkip (line : String) : Bool :=
  pyStartsWith (pyStrip line) "//" || pyStartsWith (pyStrip line) "/*"

/-- Inner loop of `validate_file`: one pattern over all lines (1-based). -/
def j8LinesScan (filePath : String) (pat : Option Char → List Char → Bool)
    (msg : String) : Nat → List String → List J8Violation
  | _, [] => []
  | i, l :: rest =>
    (if !j8CommentSkip l && reSearch pat l then
      [⟨filePath, i, msg, pyStrip l⟩] else []) ++
    j8LinesScan filePath pat msg (i + 1) rest

/-- Outer loop of `validate_file`: patterns in dict order, each scanning all
lines, so violations are grouped by pattern. -/
def j8PatternsGo (filePath : String) (lines : List String) :
    List ((Option Char → List Char → Bool) × String) → List J8Violation
  | [] => []
  | (pat, msg) :: rest =>
    j8LinesScan filePath pat msg 1 lines ++ j8PatternsGo filePath lines rest

/-- Models `Java8Validator.validate_file` on successfully read content. -/
def j8ValidateFile (filePath : String) (content : String) : List J8Violation :=
  j8PatternsGo filePath (pySplitlines content) j8Patterns

/-- File-system collaborator for `validate_java8.py`. -/
structure J8FS where
  pathExists : String → Bool
  isFile : String → Bool
  isDir : String → Bool
  read : String → Option String
  javaFiles : String → List String

/-- Models `validate_file` including the read: a read exception is caught, printed
to stderr, and contributes no violations. -/
def j8ValidateFileFS (fs : J8FS) (p : String) : List J8Violation :=
  match fs.read p with
  | some content => j8ValidateFile p content
  | none => []

/-- Models `Java8Validator.validate_directory`. -/
def j8ValidateDir (fs : J8FS) (d : String) : List J8Violation :=
  ((fs.javaFiles d).map (j8ValidateFileFS fs)).flatten

/-- The `main` of `validate_java8.py`: the returned `Nat` is the exit code
(2 for usage and environment failures, else the 0/1 of `report()`). -/
def j8Main (argv : List String) (fs : J8FS) : Nat :=
  match argv with
  | [_, p] =>
    if !(fs.pathExists p) then 2
    else if fs.isFile p then
      if pathSuffix p == ".java" then
        if (j8ValidateFileFS fs p).isEmpty then 0 else 1
      else 2
    else if fs.isDir p then
      if (j8ValidateDir fs p).isEmpty then 0 else 1
    else 2
  | _ => 2

/-! ## `validate_marketplace.py`

JSON values as loaded by `json.load`; Python `dict`s become association
lists whose lookup keeps the last binding, matching how `json.load` handles
duplicate keys.  Uncaught Python exceptions (`TypeError` on `in`/`[]`
for non-container values, unhashable set elements, attribute errors) are
modelled with `Except String`. -/

inductive JVal where
  | jnull
  | jbool (b : Bool)
  | jnum (n : Int)
  | jstr (s : String)
  | jarr (l : List JVal)
  | jobj (o : List (String × JVal))
deriving Repr

mutual

def jvalBeq : JVal → JVal → Bool
  | .jnull, .jnull => true
  | .jbool a, .jbool b => a == b
  | .jnum a, .jnum b => a == b
  | .jstr a, .jstr b => a == b
  | .jarr a, .jarr b => jarrBeq a b
  | .jobj a, .jobj b => jobjBeq a b
  | _, _ => false

def jarrBeq : List JVal → List JVal → Bool
  | [], [] => true
  | a :: as_, b :: bs => jvalBeq a b && jarrBeq as_ bs
  | _, _ => false

def jobjBeq : List (String × JVal) → List (String × JVal) → Bool
  | [], [] => true
  | (ka, va) :: as_, (kb, vb) :: bs => ka == kb && jvalBeq va vb && jobjBeq as_ bs
  | _, _ => false

end

/-- Dictionary lookup with last-binding-wins (as `json.load` builds dicts). -/
def jlookup (k : String) : List (String × JVal) → Option JVal
  | [] => none
  | (k2, v) :: rest =>
    match jlookup k rest with
    | some r => some r
    | none => if k2 == k then some v else none

def JVal.isStr : JVal → Bool
  | .jstr _ => true
  | _ => false

def JVal.isArr : JVal → Bool
  | .jarr _ => true
  | _ => false

/-- Python truthiness of a JSON value. -/
def pyTruthy : JVal → Bool
  | .jnull => false
  | .jbool b => b
  | .jnum n => n != 0
  | .jstr s => !s.isEmpty
  | .jarr l => !l.isEmpty
  | .jobj o => !o.isEmpty

/-- Python `str()` of a JSON scalar, as interpolated into f-strings.
Containers never reach an f-string in the validator: they raise at the
set-membership test first. -/
def pyStr : JVal → String
  | .jnull => "None"
  | .jbool true => "True"
  | .jbool false => "False"
  | .jnum n => toString n
  | .jstr s => s
  | .jarr _ => ""
  | .jobj _ => ""

/-- Python `key in data` for the loaded JSON value: key lookup for dicts,
element membership for lists, substring test for strings, `TypeError`
otherwise. -/
def pyContainsKey (v : JVal) (k : String) : Except String Bool :=
  match v with
  | .jobj o => .ok (jlookup k o).isSome
  | .jarr l => .ok (l.any (jvalBeq (.jstr k)))
  | .jstr s => .ok (pySubstr k s)
  | _ => .error "TypeError: argument of type is not iterable"

/-- Python `data[key]` with a string key: dict lookup, `TypeError` for every
other value (the validator only subscripts after a successful `in`). -/
def pySubscriptKey (v : JVal) (k : String) : Except String JVal :=
  match v with
  | .jobj o =>
    match jlookup k o with
    | some r => .ok r
    | none => .error "KeyError"
  | _ => .error "TypeError: indices must be integers"

/-- Structured diagnostic messages; `MpMsg.render` reproduces the exact
strings of `validate_marketplace.py`. -/
inductive MpMsg where
  | fileNotFound
  | invalidJson (e : String)
  | missingPlugins
  | pluginsNotArray
  | pluginRootNotString
  | pluginRootNoDotSlash
  | entryNotObject
  | missingName
  | duplicateName (n : String)
  | notKebabCase (n : String)
  | missingSource
  | sourceNotString
  | sourceNoDotSlash (s : String)
  | sourceNotExist (s : String)
  | sourceNotDir (s : String)
  | versionNotString
  | descriptionNotString
  | componentNotArray
  | componentEntryNotObject
  | missingPath
  | pathNotString
  | componentFileNotExist (p full : String)
deriving DecidableEq, Repr

def MpMsg.render : MpMsg → String
  | .fileNotFound => "File not found"
  | .invalidJson e => "Invalid JSON: " ++ e
  | .missingPlugins => "Missing required field \x27plugins\x27"
  | .pluginsNotArray => "\x27plugins\x27 must be an array"
  | .pluginRootNotString => "Must be a string"
  | .pluginRootNoDotSlash => "Should start with \x27./\x27 for relative paths"
  | .entryNotObject => "Plugin entry must be an object"
  | .missingName => "Missing required field \x27name\x27"
  | .duplicateName n => "Duplicate plugin name \x27" ++ n ++ "\x27"
  | .notKebabCase n => "Plugin name \x27" ++ n ++ "\x27 should use kebab-case"
  | .missingSource => "Missing required field \x27source\x27"
  | .sourceNotString => "Source must be a string"
  | .sourceNoDotSlash s => "Source path \x27" ++ s ++ "\x27 must start with \x27./\x27"
  | .sourceNotExist s => "Source directory \x27" ++ s ++ "\x27 does not exist"
  | .sourceNotDir s => "Source path \x27" ++ s ++ "\x27 is not a directory"
  | .versionNotString => "Version must be a string"
  | .descriptionNotString => "Description must be a string"
  | .componentNotArray => "Component array must be an array"
  | .componentEntryNotObject => "Component entry must be an object"
  | .missingPath => "Missing required field \x27path\x27"
  | .pathNotString => "Path must be a string"
  | .componentFileNotExist p full =>
    "Component file \x27" ++ p ++ "\x27 does not exist at \x27" ++ full ++ "\x27"

/-- Models `ValidationError` of `validate_marketplace.py`. -/
structure MpError where
  level : String
  path : String
  msg : MpMsg
deriving DecidableEq, Repr

/-- File-system collaborator for `validate_marketplace.py`. -/
structure MpFS where
  pathExists : String → Bool
  isDir : String → Bool

/-- Models `MarketplaceValidator._is_valid_kebab_case` (on a string). -/
def isValidKebabCase (name : String) : Bool :=
  if name == "" then false
  else if !(name.data.all (fun c => pyIsLowerChar c || pyIsDigitChar c || c == '-')) then false
  else if pyStartsWith name "-" || pyEndsWith name "-" then false
  else if pySubstr "--" name then false
  else true

/-- Models `_is_valid_kebab_case` applied to an arbitrary JSON value, following
Python semantics: falsy values return `False` at `if not name`; truthy
non-iterable or non-string-element values raise before any check completes.
The `jarr`/`jobj` cases are unreachable from the validator (the
set-membership test raises on unhashable values first). -/
def mpKebabCheck : JVal → Except String Bool
  | .jstr s => .ok (isValidKebabCase s)
  | .jnull => .ok false
  | .jbool false => .ok false
  | .jbool true => .error "TypeError: bool is not iterable"
  | .jnum n => if n == 0 then .ok false else .error "TypeError: int is not iterable"
  | .jarr l => if l.isEmpty then .ok false else .error "TypeError"
  | .jobj o => if o.isEmpty then .ok false else .error "TypeError"

/-- Python `name in plugin_names` for a `set`: raises on unhashable values. -/
def pySetMem (v : JVal) (seen : List JVal) : Except String Bool :=
  match v with
  | .jarr _ => .error "TypeError: unhashable type: list"
  | .jobj _ => .error "TypeError: unhashable type: dict"
  | _ => .ok (seen.any (jvalBeq v))

def mpIdxPath (idx : Nat) : String := "plugins[" ++ toString idx ++ "]"

/-- Models `MarketplaceValidator._validate_source_path`. -/
def mpValidateSourcePath (fs : MpFS) (baseDir : String) (source : JVal)
    (pfx : String) : List MpError :=
  match source with
  | .jstr s =>
    (if !pyStartsWith s "./" then
      [⟨"error", pfx ++ ".source", .sourceNoDotSlash s⟩] else []) ++
    (let sourcePath := joinPath baseDir (pyLStripDotSlash s)
     if !fs.pathExists sourcePath then
       [⟨"error", pfx ++ ".source", .sourceNotExist s⟩]
     else if !fs.isDir sourcePath then
       [⟨"error", pfx ++ ".source", .sourceNotDir s⟩]
     else [])
  | _ => [⟨"error", pfx ++ ".source", .sourceNotString⟩]

/-- Entry loop of `MarketplaceValidator._validate_component_array`. -/
def mpComponentEntriesGo (fs : MpFS) (baseDir : String) (pfx : String)
    (pluginSource : JVal) : Nat → List JVal → Except String (List MpError)
  | _, [] => .ok []
  | idx, comp :: rest => do
    let compPath := pfx ++ "[" ++ toString idx ++ "]"
    let here ←
      match comp with
      | .jobj o =>
        match jlookup "path" o with
        | none => .ok [⟨"error", compPath, .missingPath⟩]
        | some (.jstr p) =>
          if pyTruthy pluginSource then
            match pluginSource with
            | .jstr src =>
              let fullPath := joinPath (joinPath baseDir (pyLStripDotSlash src)) p
              if !fs.pathExists fullPath then
                .ok [⟨"error", compPath ++ ".path", .componentFileNotExist p fullPath⟩]
              else .ok []
            | _ => .error "AttributeError: no attribute lstrip"
          else .ok []
        | some _ => .ok [⟨"error", compPath ++ ".path", .pathNotString⟩]
      | _ => .ok [⟨"error", compPath, .componentEntryNotObject⟩]
    let rest2 ← mpComponentEntriesGo fs baseDir pfx pluginSource (idx + 1) rest
    .ok (here ++ rest2)

/-- Models `MarketplaceValidator._validate_component_array`. -/
def mpValidateComponentArray (fs : MpFS) (baseDir : String) (components : JVal)
    (pfx : String) (pluginSource : JVal) : Except String (List MpError) :=
  match components with
  | .jarr entries => mpComponentEntriesGo fs baseDir pfx pluginSource 0 entries
  | _ => .ok [⟨"error", pfx, .componentNotArray⟩]

/-- The three optional component arrays of one plugin entry. -/
def mpComponents (fs : MpFS) (baseDir : String) (idx : Nat)
    (o : List (String × JVal)) : Except String (List MpError) := do
  let one := fun (ct : String) =>
    match jlookup ct o with
    | some comps =>
      mpValidateComponentArray fs baseDir comps (mpIdxPath idx ++ "." ++ ct)
        ((jlookup "source" o).getD (.jstr ""))
    | none => .ok ([] : List MpError)
  let a ← one "agents"
  let b ← one "commands"
  let c ← one "skills"
  .ok (a ++ b ++ c)

/-- Name checking of one plugin entry (duplicate detection into the shared
`plugin_names` set, then the kebab-case warning); returns
(errors, warnings, updated set). -/
def mpNameChecks (idx : Nat) (seen : List JVal) (o : List (String × JVal)) :
    Except String (List MpError × List MpError × List JVal) :=
  match jlookup "name" o with
  | none => .ok ([⟨"error", mpIdxPath idx, .missingName⟩], [], seen)
  | some name => do
    let isMem ← pySetMem name seen
    let dupErrs := if isMem then
      [⟨"error", mpIdxPath idx ++ ".name", .duplicateName (pyStr name)⟩] else []
    let seen2 := if isMem then seen else seen ++ [name]
    let kebabOk ← mpKebabCheck name
    let warns := if !kebabOk then
      [⟨"warning", mpIdxPath idx ++ ".name", .notKebabCase (pyStr name)⟩] else []
    .ok (dupErrs, warns, seen2)

/-- Entry loop of `MarketplaceValidator._validate_plugins`. -/
def mpPluginsGo (fs : MpFS) (baseDir : String) :
    Nat → List JVal → List JVal → Except String (List MpError × List MpError)
  | _, _, [] => .ok ([], [])
  | idx, seen, p :: rest =>
    match p with
    | .jobj o => do
      let (nameErrs, nameWarns, seen2) ← mpNameChecks idx seen o
      let sourceErrs :=
        match jlookup "source" o with
        | none => [⟨"error", mpIdxPath idx, .missingSource⟩]
        | some src => mpValidateSourcePath fs baseDir src (mpIdxPath idx)
      let versionErrs :=
        match jlookup "version" o with
        | some v => if !v.isStr then
            [⟨"error", mpIdxPath idx ++ ".version", .versionNotString⟩] else []
        | none => []
      let descErrs :=
        match jlookup "description" o with
        | some v => if !v.isStr then
            [⟨"error", mpIdxPath idx ++ ".description", .descriptionNotString⟩] else []
        | none => []
      let compErrs ← mpComponents fs baseDir idx o
      let (restErrs, restWarns) ← mpPluginsGo fs baseDir (idx + 1) seen2 rest
      .ok (nameErrs ++ sourceErrs ++ versionErrs ++ descErrs ++ compErrs ++ restErrs,
           nameWarns ++ restWarns)
    | _ => do
      let (restErrs, restWarns) ← mpPluginsGo fs baseDir (idx + 1) seen rest
      .ok (⟨"error", mpIdxPath idx, .entryNotObject⟩ :: restErrs, restWarns)

/-- Models `MarketplaceValidator._validate_plugins`. -/
def mpValidatePlugins (fs : MpFS) (baseDir : String) (data : JVal) :
    Except String (List MpError × List MpError) := do
  let hasP ← pyContainsKey data "plugins"
  if !hasP then .ok ([], [])
  else do
    let plugins ← pySubscriptKey data "plugins"
    match plugins with
    | .jarr entries => mpPluginsGo fs baseDir 0 [] entries
    | _ => .ok ([], [])

/-- Models `MarketplaceValidator._validate_structure`. -/
def mpValidateStructure (data : JVal) :
    Except String (List MpError × List MpError) := do
  let hasP ← pyContainsKey data "plugins"
  if !hasP then .ok ([⟨"error", "marketplace.json", .missingPlugins⟩], [])
  else do
    let plugins ← pySubscriptKey data "plugins"
    let e1 := if !plugins.isArr then
      [⟨"error", "marketplace.json", .pluginsNotArray⟩] else []
    let hasPR ← pyContainsKey data "pluginRoot"
    if hasPR then do
      let pr ← pySubscriptKey data "pluginRoot"
      match pr with
      | .jstr s =>
        if !pyStartsWith s "./" then
          .ok (e1, [⟨"warning", "pluginRoot", .pluginRootNoDotSlash⟩])
        else .ok (e1, [])
      | _ => .ok (e1 ++ [⟨"error", "pluginRoot", .pluginRootNotString⟩], [])
    else .ok (e1, [])

/-- The result of `MarketplaceValidator._load_json`, supplied externally. -/
inductive MpLoad where
  | notFound
  | badJson (e : String)
  | ok (v : JVal)

/-- Models `MarketplaceValidator.validate`: returns the verdict together with the
`errors` and `warnings` lists accumulated by the run. -/
def mpValidateRun (mpPath : String) (load : MpLoad) (fs : MpFS)
    (baseDir : String) : Except String (Bool × List MpError × List MpError) :=
  match load with
  | .notFound => .ok (false, [⟨"error", mpPath, .fileNotFound⟩], [])
  | .badJson e => .ok (false, [⟨"error", mpPath, .invalidJson e⟩], [])
  | .ok v => do
    let (e1, w1) ← mpValidateStructure v
    let (e2, w2) ← mpValidatePlugins fs baseDir v
    let errs := e1 ++ e2
    .ok (errs.isEmpty, errs, w1 ++ w2)

/-- The `main` of `validate_marketplace.py`: `sys.exit(0 if success else 1)`. -/
def mpMain (mpPath : String) (load : MpLoad) (fs : MpFS) (baseDir : String) :
    Except String Nat := do
  let (success, _, _) ← mpValidateRun mpPath load fs baseDir
  .ok (if success then 0 else 1)

/-! ## `validate_recipe.py` -/

/-- Models `class\s+(\w+)\s+extends\s+Recipe` at a position, returning group 1. -/
def classExtendsRecipeAt (cs : List Char) : Option String := do
  let r1 ← litAt "class".data cs
  let r2 ← wsPlus r1
  let w := r2.takeWhile isWordChar
  if w.isEmpty then none
  else do
    let r3 ← wsPlus (r2.drop w.length)
    let r4 ← litAt "extends".data r3
    let r5 ← wsPlus r4
    let _ ← litAt "Recipe".data r5
    some (String.mk w)

/-- Models `re.search` of `class\s+(\w+)\s+extends\s+Recipe` over the content. -/
def classExtendsRecipe (content : String) : Option String :=
  scanFirstStr classExtendsRecipeAt content.data

/-- Models `package\s+([\w.]+);` at a position, returning group 1. -/
def packageNameAt (cs : List Char) : Option String := do
  let r1 ← litAt "package".data cs
  let r2 ← wsPlus r1
  let w := r2.takeWhile (fun c => isWordChar c || c == '.')
  if w.isEmpty then none
  else do
    let _ ← expectChar ';' (r2.drop w.length)
    some (String.mk w)

/-- Models `re.search` of `package\s+([\w.]+);` over the content. -/
def packageName (content : String) : Option String :=
  scanFirstStr packageNameAt content.data

/-- Models `re.match` of `^[A-Z][a-z]+[A-Z]` on the class name (the VerbNoun heuristic). -/
def verbNounOk (s : String) : Bool :=
  match s.data with
  | c :: rest =>
    ('A' ≤ c && c ≤ 'Z') &&
    (let lr := rest.takeWhile (fun d => 'a' ≤ d && d ≤ 'z')
     !lr.isEmpty &&
       (match rest.drop lr.length with
        | d :: _ => 'A' ≤ d && d ≤ 'Z'
        | [] => false))
  | [] => false

/-- Models `check_java_file_structure`: the returned error list.  The `@Value`,
`@EqualsAndHashCode`, visitor-body, display-name-period and `@Option`
checks only print warnings and contribute nothing to the list. -/
def checkJavaFileStructure (content : String) : List String :=
  (if (classExtendsRecipe content).isNone then
    ["Recipe class must extend Recipe"] else []) ++
  (if !pySubstr "getDisplayName()" content then
    ["Recipe must override getDisplayName()"] else []) ++
  (if !pySubstr "getDescription()" content then
    ["Recipe must override getDescription()"] else []) ++
  (if !pySubstr "getVisitor()" content then
    ["Recipe must override getVisitor()"] else [])

/-- Models `check_naming_conventions`: the returned error list (only the
file-name/class-name mismatch is ever appended). -/
def checkNamingConventions (content fileName : String) : List String :=
  match classExtendsRecipe content with
  | some cn =>
    if fileName != cn ++ ".java" then
      ["File name " ++ fileName ++ " does not match class name " ++ cn ++ ".java"]
    else []
  | none => []

/-- The warnings `check_naming_conventions` prints (package placeholder,
then the VerbNoun naming heuristic); they are never collected. -/
def checkNamingConventionsPrinted (content : String) : List String :=
  (match packageName content with
   | some pkg =>
     if pyStartsWith pkg "com.yourorg" || pyStartsWith pkg "com.example" then
       ["Update placeholder package name: " ++ pkg] else []
   | none => []) ++
  (match classExtendsRecipe content with
   | some cn =>
     if !verbNounOk cn then
       ["Recipe class name should follow VerbNoun pattern: " ++ cn] else []
   | none => [])

/-- Models `\bvar\b` at a position. -/
def varWordAt (prev : Option Char) (cs : List Char) : Bool :=
  atWordBoundary prev &&
    (match litAt "var".data cs with
     | some [] => true
     | some (c :: _) => !isWordChar c
     | none => false)

/-- Models `instanceof\s+\w+\s+\w+\s+&&` at a position (no word boundary in the
source pattern). -/
def instanceofAmpAt (_ : Option Char) (cs : List Char) : Bool :=
  (litAt "instanceof".data cs >>= wsPlus >>= wordPlus >>= wsPlus >>=
    wordPlus >>= wsPlus >>= litAt "&&".data).isSome

/-- Models `switch\s*\([^)]+\)\s*\{[^}]*->` at a position (unanchored variant
used by `check_java8_compatibility_patterns`). -/
def switchArrowPlainAt (_ : Option Char) (cs : List Char) : Bool :=
  switchArrowCore cs

/-- Models `\brecord\s+\w+` at a position. -/
def recordWordAt (prev : Option Char) (cs : List Char) : Bool :=
  atWordBoundary prev && (litAt "record".data cs >>= wsPlus >>= wordPlus).isSome

/-- Models `check_java8_compatibility_patterns`: the returned warning list. -/
def checkJava8Compat (content : String) : List String :=
  (if reSearch varWordAt content then
    ["Found \x27var\x27 keyword - not available in Java 8"] else []) ++
  (if pySubstr "\"\"\"" content then
    ["Found text blocks (triple quotes) - not available in Java 8"] else []) ++
  (if reSearch switchArrowPlainAt content then
    ["Found switch expression - not available in Java 8"] else []) ++
  (if reSearch instanceofAmpAt content then
    ["Found pattern matching in instanceof - not available in Java 8"] else []) ++
  (if reSearch recordWordAt content then
    ["Found record - not available in Java 8"] else [])

/-- Models `^` position search under `re.MULTILINE`: the start of the string and
every position following a newline. -/
def searchBOLGo (f : List Char → Bool) : List Char → Bool
  | [] => false
  | '\n' :: rest => f rest || searchBOLGo f rest
  | _ :: rest => searchBOLGo f rest

def searchBOL (f : List Char → Bool) (s : String) : Bool :=
  f s.data || searchBOLGo f s.data

/-- Models `^name:\s+[\w.]+` at a beginning-of-line position. -/
def yamlNameAt (cs : List Char) : Bool :=
  (litAt "name:".data cs >>= wsPlus >>=
    fun r =>
      let n := (r.takeWhile (fun c => isWordChar c || c == '.')).length
      if n == 0 then none else some (r.drop n)).isSome

/-- Models `validate_yaml_recipe`: the returned error list (the naming-convention
checks at the end only print warnings). -/
def validateYamlRecipe (content : String) : List String :=
  (if !pySubstr "type: specs.openrewrite.org/v1beta/recipe" content then
    ["YAML recipe must have \x27type: specs.openrewrite.org/v1beta/recipe\x27"] else []) ++
  (if !searchBOL yamlNameAt content then
    ["YAML recipe must have \x27name\x27 field"] else []) ++
  (if !searchBOL (fun cs => (litAt "displayName:".data cs).isSome) content then
    ["YAML recipe must have \x27displayName\x27 field"] else []) ++
  (if !searchBOL (fun cs => (litAt "description:".data cs).isSome) content then
    ["YAML recipe must have \x27description\x27 field"] else []) ++
  (if !searchBOL (fun cs => (litAt "recipeList:".data cs).isSome) content then
    ["YAML recipe must have \x27recipeList\x27 field"] else [])

/-- External inputs of `validate_recipe`: whether the file exists, its content
(`none` models a read exception), its final name and its suffix. -/
structure RecipeInput where
  fileExists : Bool
  readContent : Option String
  fileName : String
  suffix : String

def compileFailMsg (e : String) : String := "Compilation failed:\n" ++ e

/-- Models `validate_recipe`: verdict, collected `errors` and collected `warnings`.
The compiler subprocess is an external collaborator, supplied as its
success flag and stderr text; `skipCompile` is the `--no-compile` flag. -/
def validateRecipe (inp : RecipeInput) (skipCompile compileOk : Bool)
    (compileErr : String) : Bool × List String × List String :=
  if !inp.fileExists then (false, [], [])
  else
    match inp.readContent with
    | none => (false, [], [])
    | some content =>
      if inp.suffix == ".java" then
        let e1 := checkJavaFileStructure content ++
          checkNamingConventions content inp.fileName
        let w1 := checkJava8Compat content
        let e2 := e1 ++
          (if !skipCompile && !compileOk && !(pySubstr "javac not found" compileErr)
           then [compileFailMsg compileErr] else [])
        let verdict :=
          if e2.isEmpty && w1.isEmpty then true
          else if e2.isEmpty then true
          else false
        (verdict, e2, w1)
      else if inp.suffix == ".yml" || inp.suffix == ".yaml" then
        let es := validateYamlRecipe content
        let verdict :=
          if es.isEmpty then true else false
        (verdict, es, [])
      else (false, [], [])

/-- The `main` of `validate_recipe.py`: `sys.exit(0 if success else 1)`. -/
def recipeMain (inp : RecipeInput) (skipCompile compileOk : Bool)
    (compileErr : String) : Nat :=
  if (validateRecipe inp skipCompile compileOk compileErr).1 then 0 else 1

/-! ## Sequencing in the rule engine

`MarkdownValidator.validate` (and likewise `validate_recipe`) runs its rule
checks one after another with no exception handling around them; `runRules`
is that sequencing over rules that may raise (`Except`): an exception in one
rule propagates and aborts the run. -/

def runRules {α ε β : Type} (rules : List (α → Except ε (List β))) (doc : α) :
    Except ε (List β) :=
  match rules with
  | [] => .ok []
  | r :: rest => do
    let ds ← r doc
    let rest2 ← runRules rest doc
    .ok (ds ++ rest2)

/-- The four rule checks of `MarkdownValidator.validate`, as total rules. -/
def mdRules : List (List String → Except String (List MdError)) :=
  [fun lines => .ok (checkHeadingHierarchy lines),
   fun lines => .ok (checkCodeBlocks lines),
   fun lines => .ok (checkLinks lines),
   fun lines => .ok (checkBasicStructure lines)]

/-! ## Auxiliary definitions for the statements -/

/-- Recognizer for duplicate-name diagnostics. -/
def mpIsDup (e : MpError) : Bool :=
  match e.msg with
  | .duplicateName _ => true
  | _ => false

/-- The (1-based line, level) sequence of the heading lines of a document. -/
def headingsGo : Nat → List String → List (Nat × Nat)
  | _, [] => []
  | i, l :: rest =>
    match headingMatch l with
    | some (lv, _) => (i, lv) :: headingsGo (i + 1) rest
    | none => headingsGo (i + 1) rest

def headingsOf (lines : List String) : List (Nat × Nat) := headingsGo 1 lines

/-- Follows the words of the spec: pair each heading with the level of the
preceding heading (`prev` for the first) and keep the lines of those whose
level exceeds the predecessor level plus one. -/
def skipSpecFrom (prev : Nat) (hs : List (Nat × Nat)) : List Nat :=
  ((prev :: hs.map Prod.snd).zip hs).filterMap
    (fun pr => if pr.2.2 > pr.1 + 1 then some pr.2.1 else none)

def skipSpec (hs : List (Nat × Nat)) : List Nat := skipSpecFrom 0 hs

/-- The lines of the `HEADING_SKIP` diagnostics of an error list. -/
def mdSkipLines (es : List MdError) : List Nat :=
  es.filterMap (fun e => if e.error_type = "HEADING_SKIP" then some e.line_num else none)

/-- A Java recipe whose only defect is a class name violating the VerbNoun
heuristic. -/
def c3RecipeContent : String :=
  "package org.x;\nclass Badclass extends Recipe \x7b getDisplayName() getDescription() getVisitor() \x7d"

/-! # Theorems -/

theorem chContains_iff_infix (needle hay : List Char) :
    chContains needle hay = true ↔ needle <:+: hay := by
  induction hay with
  | nil => simp [chContains, List.isEmpty_iff, List.infix_nil]
  | cons c cs ih =>
    simp [chContains, List.isPrefixOf_iff_prefix, ih, List.infix_cons_iff]

theorem isValidKebab_eq (name : String) :
    isValidKebabCase name =
      (!(name == "") &&
       name.data.all (fun c => pyIsLowerChar c || pyIsDigitChar c || c == '-') &&
       !(pyStartsWith name "-") && !(pyEndsWith name "-") && !(pySubstr "--" name)) := by
  unfold isValidKebabCase
  cases h1 : (name == "") <;>
    cases h2 : name.data.all (fun c => pyIsLowerChar c || pyIsDigitChar c || c == '-') <;>
      cases h3 : pyStartsWith name "-" <;> cases h4 : pyEndsWith name "-" <;>
        cases h5 : pySubstr "--" name <;> simp [h1, h2, h3, h4, h5]

/-- C10: the kebab-case predicate accepts exactly the nonempty names whose
characters are all `islower()`, `isdigit()` or `-`, that neither start nor
end with `-`, and that contain no `--`; the empty string is rejected and
non-ASCII lowercase letters are accepted. -/
theorem c10_kebab_case :
    (∀ name : String,
      isValidKebabCase name = true ↔
        (name ≠ "" ∧
         (∀ c ∈ name.data, pyIsLowerChar c = true ∨ pyIsDigitChar c = true ∨ c = '-') ∧
         ¬ ['-'] <+: name.data ∧ ¬ ['-'] <:+ name.data ∧ ¬ ['-', '-'] <:+: name.data)) ∧
    isValidKebabCase "" = false ∧ isValidKebabCase "café" = true := by
  refine ⟨?_, by decide, by decide⟩
  intro name
  rw [isValidKebab_eq]
  have hd1 : ("-" : String).data = ['-'] := rfl
  have hd2 : ("--" : String).data = ['-', '-'] := rfl
  have hsuf : (['-'] <+: name.data.reverse) ↔ ['-'] <:+ name.data := by
    simpa using @List.reverse_prefix Char ['-'] name.data
  constructor
  · intro h
    simp only [Bool.and_eq_true, Bool.not_eq_true', beq_eq_false_iff_ne, ne_eq,
      List.all_eq_true, Bool.or_eq_true, beq_iff_eq, pyStartsWith, pyEndsWith, pySubstr,
      hd1, hd2, List.reverse_singleton] at h
    obtain ⟨⟨⟨⟨h1, h2⟩, h3⟩, h4⟩, h5⟩ := h
    refine ⟨h1, fun c hc => or_assoc.mp (h2 c hc), ?_, ?_, ?_⟩
    · rw [← @List.isPrefixOf_iff_prefix Char inferInstance inferInstance ['-'] name.data]
      simp [h3]
    · rw [← hsuf, ← @List.isPrefixOf_iff_prefix Char inferInstance inferInstance ['-'] name.data.reverse]
      simp [h4]
    · rw [← chContains_iff_infix]
      simp [h5]
  · rintro ⟨h1, h2, h3, h4, h5⟩
    simp only [Bool.and_eq_true, Bool.not_eq_true', beq_eq_false_iff_ne, ne_eq,
      List.all_eq_true, Bool.or_eq_true, beq_iff_eq, pyStartsWith, pyEndsWith, pySubstr,
      hd1, hd2, List.reverse_singleton]
    rw [← @List.isPrefixOf_iff_prefix Char inferInstance inferInstance ['-'] name.data] at h3
    rw [← hsuf, ← @List.isPrefixOf_iff_prefix Char inferInstance inferInstance ['-'] name.data.reverse] at h4
    rw [← chContains_iff_infix] at h5
    exact ⟨⟨⟨⟨h1, fun c hc => or_assoc.mpr (h2 c hc)⟩, Bool.eq_false_iff.mpr h3⟩,
      Bool.eq_false_iff.mpr h4⟩, Bool.eq_false_iff.mpr h5⟩

/-- C9: a plugin `source` of `"./missing"` yields exactly one Error (naming
that path) when `missing` does not exist under the base directory, and no
error when it resolves to an existing directory. -/
theorem c9_source_existence (fs fs2 : MpFS) (baseDir pfx : String)
    (hne : fs.pathExists (joinPath baseDir "missing") = false)
    (hex : fs2.pathExists (joinPath baseDir "missing") = true)
    (hdir : fs2.isDir (joinPath baseDir "missing") = true) :
    mpValidateSourcePath fs baseDir (.jstr "./missing") pfx =
      [⟨"error", pfx ++ ".source", .sourceNotExist "./missing"⟩] ∧
    (MpMsg.sourceNotExist "./missing").render =
      "Source directory \x27./missing\x27 does not exist" ∧
    mpValidateSourcePath fs2 baseDir (.jstr "./missing") pfx = [] := by
  have h1 : pyStartsWith "./missing" "./" = true := by decide
  have h2 : pyLStripDotSlash "./missing" = "missing" := by decide
  refine ⟨?_, rfl, ?_⟩
  · simp [mpValidateSourcePath, h1, h2, hne]
  · simp [mpValidateSourcePath, h1, h2, hex, hdir]

theorem c9_source_existence_witness :
    mpValidateSourcePath ⟨fun _ => false, fun _ => false⟩ "base" (.jstr "./missing")
        "plugins[0]" =
      [⟨"error", "plugins[0].source", .sourceNotExist "./missing"⟩] ∧
    mpValidateSourcePath ⟨fun _ => true, fun _ => true⟩ "base" (.jstr "./missing")
        "plugins[0]" = [] := by
  have h := c9_source_existence ⟨fun _ => false, fun _ => false⟩
    ⟨fun _ => true, fun _ => true⟩ "base" "plugins[0]" rfl rfl rfl
  exact ⟨h.1, h.2.2⟩

/-- C4 fails on the code: the rule engine sequences rule checks with no
exception handling, so a raising rule aborts the run and the remaining
diagnostics of the remaining rules are lost. -/
theorem c4_raising_rule_aborts :
    runRules
      [fun _ => .error "rule crashed",
       fun _ => .ok [(⟨1, "NO_H1", mdNoH1Msg⟩ : MdError)]]
      ([] : List String) = .error "rule crashed" := rfl

/-- C4 amended: the engine runs the rules in sequence without catching
exceptions; the rule checks of the repository are total, so the complete run
returns the diagnostics of every rule. -/
theorem c4_engine_amended (lines : List String) :
    runRules mdRules lines =
      .ok (checkHeadingHierarchy lines ++ checkCodeBlocks lines ++
        checkLinks lines ++ checkBasicStructure lines) := by
  simp [runRules, mdRules, Bind.bind, Except.bind, List.append_assoc]

/-- C2 fails on the code: invoked with a missing required argument, the
markdown validator exits 1, not the distinct usage code 2. -/
theorem c2_markdown_usage_exit_code :
    mdMain ["validate_markdown.py"]
      ⟨fun _ => false, fun _ => false, fun _ => false,
       fun _ => .error "e", fun _ => []⟩ = 1 ∧ (1 : Nat) ≠ 2 := by
  exact ⟨rfl, by decide⟩

/-- C3 fails on the code: a document whose only diagnostic comes from the
title-case heuristic produces an error (the only severity the markdown
severity) and makes the run exit 1. -/
theorem c3_title_case_is_error :
    mdValidate ["# The Quick Brown Fox\n"] =
      [⟨1, "TITLE_CASE", mdTitleMsg "The Quick Brown Fox"⟩] ∧
    mdMain ["validate_markdown.py", "doc.md"]
      (⟨fun p => p == "doc.md", fun p => p == "doc.md", fun _ => false,
        fun _ => .ok ["# The Quick Brown Fox\n"], fun _ => []⟩ : MdFS) = 1 := by
  exact ⟨by decide, by decide⟩


theorem verdictIff (E W : List String) :
    ((if E.isEmpty && W.isEmpty then true else if E.isEmpty then true else false) = true
      ↔ E = []) := by
  cases E <;> cases W <;> simp [List.isEmpty]

/-- C1: for both validators the verdict is gated only by Error diagnostics:
a run over a loaded document of a supported type passes exactly when the
collected error list is empty, however many warnings were collected. -/
theorem c1_pass_iff_no_errors :
    (∀ (mpPath : String) (load : MpLoad) (fs : MpFS) (baseDir : String)
        (p : Bool) (errs warns : List MpError),
        mpValidateRun mpPath load fs baseDir = .ok (p, errs, warns) →
        (p = true ↔ errs = [])) ∧
    (∀ (inp : RecipeInput) (sc co : Bool) (ce : String)
        (p : Bool) (errs warns : List String),
        inp.fileExists = true → inp.readContent.isSome = true →
        (inp.suffix = ".java" ∨ inp.suffix = ".yml" ∨ inp.suffix = ".yaml") →
        validateRecipe inp sc co ce = (p, errs, warns) →
        (p = true ↔ errs = [])) := by
  constructor
  · intro mpPath load fs baseDir p errs warns h
    cases load with
    | notFound =>
      simp [mpValidateRun] at h
      obtain ⟨h1, h2, h3⟩ := h
      subst h1; subst h2; simp
    | badJson e =>
      simp [mpValidateRun] at h
      obtain ⟨h1, h2, h3⟩ := h
      subst h1; subst h2; simp
    | ok v =>
      simp only [mpValidateRun] at h
      cases hs : mpValidateStructure v with
      | error e => rw [hs] at h; simp [Bind.bind, Except.bind] at h
      | ok pr1 =>
        obtain ⟨e1, w1⟩ := pr1
        rw [hs] at h
        cases hp : mpValidatePlugins fs baseDir v with
        | error e2 => rw [hp] at h; simp [Bind.bind, Except.bind] at h
        | ok pr2 =>
          obtain ⟨e2, w2⟩ := pr2
          rw [hp] at h
          simp [Bind.bind, Except.bind] at h
          obtain ⟨h1, h2, h3⟩ := h
          subst h1; subst h2
          simp [List.isEmpty_iff]
  · intro inp sc co ce p errs warns hex hrd hsuf h
    obtain ⟨content, hc⟩ := Option.isSome_iff_exists.mp hrd
    unfold validateRecipe at h
    rw [hex, hc] at h
    rcases hsuf with h1 | h1 | h1 <;> rw [h1] at h <;> simp at h <;>
      obtain ⟨hp, he, hw⟩ := h <;> subst hp <;> subst he
    · cases sc <;> cases co <;> cases hsub : pySubstr "javac not found" ce <;>
        simp [hsub, List.append_eq_nil] <;> tauto
    · simp
    · simp

theorem c1_pass_iff_no_errors_witness :
    (false = true ↔
      ([(⟨"error", "mp.json", .fileNotFound⟩ : MpError)] = ([] : List MpError))) ∧
    (true = true ↔ ([] : List String) = []) := by
  constructor
  · exact c1_pass_iff_no_errors.1 "mp.json" .notFound ⟨fun _ => false, fun _ => false⟩
      "b" false [⟨"error", "mp.json", .fileNotFound⟩] [] rfl
  · exact c1_pass_iff_no_errors.2
      ⟨true, some "type: specs.openrewrite.org/v1beta/recipe\nname: org.x.Y\ndisplayName: X\ndescription: d\nrecipeList:\n  - x", "r.yml", ".yml"⟩
      true true "" true [] [] rfl rfl (Or.inr (Or.inl rfl)) (by decide)

/-- C3 amended: the VerbNoun naming check only prints a warning and never
contributes to the collected error list (the only possible naming error is
the file-name/class-name mismatch), and a recipe violating only the VerbNoun
heuristic passes validation; the title-case heuristic, however, emits an
Error-severity diagnostic (the only severity the markdown validator has), so a
title-case violation alone does make validation fail. -/
theorem c3_heuristics_amended :
    (∀ content fileName : String,
      checkNamingConventions content fileName = [] ∨
      ∃ cn, classExtendsRecipe content = some cn ∧
        checkNamingConventions content fileName =
          ["File name " ++ fileName ++ " does not match class name " ++ cn ++ ".java"]) ∧
    validateRecipe ⟨true, some c3RecipeContent, "Badclass.java", ".java"⟩ true true "" =
      (true, [], []) ∧
    checkNamingConventionsPrinted c3RecipeContent =
      ["Recipe class name should follow VerbNoun pattern: Badclass"] ∧
    verbNounOk "Badclass" = false := by
  refine ⟨?_, by decide, by decide, by decide⟩
  intro content fileName
  unfold checkNamingConventions
  cases h : classExtendsRecipe content with
  | none => exact Or.inl rfl
  | some cn =>
    cases hf : (fileName != cn ++ ".java") with
    | false => simp [hf]
    | true => exact Or.inr ⟨cn, rfl, by simp [hf]⟩

/-- C2 amended: only the java8 validator follows the 0/1/2 exit-code
discipline (0 pass, 1 violations, 2 usage/environment failure); the markdown
validator exits 1 for usage and environment failures as well as for
diagnostics; the marketplace validator reports a bad path as an error
diagnostic and exits 1, and only ever exits 0 or 1. -/
theorem c2_exit_codes_amended :
    (∀ (argv : List String) (fs : J8FS), argv.length ≠ 2 → j8Main argv fs = 2) ∧
    (∀ (prog p : String) (fs : J8FS), fs.pathExists p = false →
      j8Main [prog, p] fs = 2) ∧
    (∀ (prog p : String) (fs : J8FS), fs.pathExists p = true → fs.isFile p = true →
      pathSuffix p = ".java" →
      j8Main [prog, p] fs = if (j8ValidateFileFS fs p).isEmpty then 0 else 1) ∧
    (∀ (prog p : String) (fs : J8FS), fs.pathExists p = true → fs.isFile p = true →
      pathSuffix p ≠ ".java" → j8Main [prog, p] fs = 2) ∧
    (∀ (argv : List String) (fs : MdFS), argv.length ≠ 2 → mdMain argv fs = 1) ∧
    (∀ (prog p : String) (fs : MdFS), fs.pathExists p = false →
      mdMain [prog, p] fs = 1) ∧
    (∀ (prog p : String) (fs : MdFS), fs.pathExists p = true → fs.isFile p = true →
      pathSuffix p = ".md" →
      mdMain [prog, p] fs = if (mdValidateFileErrors fs p).isEmpty then 0 else 1) ∧
    (∀ (prog p : String) (fs : MdFS), fs.pathExists p = true → fs.isFile p = true →
      pathSuffix p ≠ ".md" → mdMain [prog, p] fs = 1) ∧
    (∀ (mpPath : String) (fs : MpFS) (baseDir : String),
      mpMain mpPath .notFound fs baseDir = .ok 1) ∧
    (∀ (mpPath : String) (load : MpLoad) (fs : MpFS) (baseDir : String) (n : Nat),
      mpMain mpPath load fs baseDir = .ok n → n = 0 ∨ n = 1) := by
  refine ⟨?_, ?_, ?_, ?_, ?_, ?_, ?_, ?_, ?_, ?_⟩
  · intro argv fs hlen
    rcases argv with _ | ⟨a, _ | ⟨b, _ | ⟨c, t⟩⟩⟩
    · rfl
    · rfl
    · exact absurd rfl hlen
    · rfl
  · intro prog p fs h
    simp [j8Main, h]
  · intro prog p fs h1 h2 h3
    have hb : (pathSuffix p == ".java") = true := by simp [h3]
    simp [j8Main, h1, h2, hb]
  · intro prog p fs h1 h2 h3
    have hb : (pathSuffix p == ".java") = false := beq_eq_false_iff_ne.mpr h3
    simp [j8Main, h1, h2, hb]
  · intro argv fs hlen
    rcases argv with _ | ⟨a, _ | ⟨b, _ | ⟨c, t⟩⟩⟩
    · rfl
    · rfl
    · exact absurd rfl hlen
    · rfl
  · intro prog p fs h
    simp [mdMain, h]
  · intro prog p fs h1 h2 h3
    have hb : (pathSuffix p == ".md") = true := by simp [h3]
    simp [mdMain, h1, h2, hb]
  · intro prog p fs h1 h2 h3
    have hb : (pathSuffix p == ".md") = false := beq_eq_false_iff_ne.mpr h3
    simp [mdMain, h1, h2, hb]
  · intro mpPath fs baseDir
    rfl
  · intro mpPath load fs baseDir n h
    cases load with
    | notFound => simp [mpMain, mpValidateRun, Bind.bind, Except.bind] at h; omega
    | badJson e => simp [mpMain, mpValidateRun, Bind.bind, Except.bind] at h; omega
    | ok v =>
      simp only [mpMain, mpValidateRun] at h
      cases hs : mpValidateStructure v with
      | error e => rw [hs] at h; simp [Bind.bind, Except.bind] at h
      | ok pr1 =>
        obtain ⟨e1, w1⟩ := pr1
        rw [hs] at h
        cases hp : mpValidatePlugins fs baseDir v with
        | error e2 => rw [hp] at h; simp [Bind.bind, Except.bind] at h
        | ok pr2 =>
          obtain ⟨e2, w2⟩ := pr2
          rw [hp] at h
          simp [Bind.bind, Except.bind] at h
          split at h <;> omega

theorem c2_exit_codes_amended_witness :
    j8Main ["validate_java8.py"]
      ⟨fun _ => false, fun _ => false, fun _ => false, fun _ => none, fun _ => []⟩ = 2 ∧
    mdMain ["validate_markdown.py", "nope.md"]
      ⟨fun _ => false, fun _ => false, fun _ => false, fun _ => .error "e", fun _ => []⟩ = 1 ∧
    ((1 : Nat) = 0 ∨ (1 : Nat) = 1) := by
  refine ⟨?_, ?_, ?_⟩
  · exact c2_exit_codes_amended.1 ["validate_java8.py"] _ (by decide)
  · exact c2_exit_codes_amended.2.2.2.2.2.1 "validate_markdown.py" "nope.md" _ rfl
  · exact c2_exit_codes_amended.2.2.2.2.2.2.2.2.2 "m" .notFound
      ⟨fun _ => false, fun _ => false⟩ "b" 1
      (c2_exit_codes_amended.2.2.2.2.2.2.2.2.1 "m" ⟨fun _ => false, fun _ => false⟩ "b")

theorem mem_mdInsert (e x : MdError) (l : List MdError) :
    x ∈ mdInsert e l ↔ x = e ∨ x ∈ l := by
  induction l with
  | nil => simp [mdInsert]
  | cons a t ih =>
    simp only [mdInsert]
    split
    · simp
    · simp [ih]
      tauto

theorem mdInsert_sorted (e : MdError) (l : List MdError)
    (h : List.Sorted (fun a b : MdError => a.line_num ≤ b.line_num) l) :
    List.Sorted (fun a b : MdError => a.line_num ≤ b.line_num) (mdInsert e l) := by
  induction l with
  | nil => simp [mdInsert]
  | cons a t ih =>
    rw [List.sorted_cons] at h
    obtain ⟨ha, ht⟩ := h
    simp only [mdInsert]
    split
    · rename_i hle
      rw [List.sorted_cons]
      refine ⟨?_, ?_⟩
      · intro b hb
        rcases List.mem_cons.mp hb with rfl | hb
        · exact hle
        · exact le_trans hle (ha b hb)
      · rw [List.sorted_cons]
        exact ⟨ha, ht⟩
    · rename_i hgt
      rw [List.sorted_cons]
      refine ⟨?_, ih ht⟩
      intro b hb
      rcases (mem_mdInsert e b t).mp hb with rfl | hb
      · omega
      · exact ha b hb

theorem mdSortErrors_sorted (l : List MdError) :
    List.Sorted (fun a b : MdError => a.line_num ≤ b.line_num) (mdSortErrors l) := by
  induction l with
  | nil => simp [mdSortErrors]
  | cons x xs ih => exact mdInsert_sorted x (mdSortErrors xs) ih

/-- C5 fails on the code: the java8 validator appends violations grouped by
pattern, so its output is not sorted by line number: a text-block violation
on line 1 is reported after a `var` violation on line 2. -/
theorem c5_java8_output_not_sorted :
    ((j8ValidateFile "T.java" "\"\"\"\nvar x = 1;").map J8Violation.line = [2, 1]) ∧
    ¬ List.Sorted (fun a b : J8Violation => a.line ≤ b.line)
      (j8ValidateFile "T.java" "\"\"\"\nvar x = 1;") := by
  have h : j8ValidateFile "T.java" "\"\"\"\nvar x = 1;" =
    [⟨"T.java", 2, "Java 10+ feature: local variable type inference (var)", "var x = 1;"⟩,
     ⟨"T.java", 1, "Java 15+ feature: text blocks (triple quotes)", "\"\"\""⟩] := by decide
  rw [h]
  refine ⟨rfl, ?_⟩
  rw [List.sorted_cons]
  intro hcon
  have h2 := hcon.1 _ (List.mem_singleton.mpr rfl)
  simp at h2

/-- C5 amended: the diagnostic list of the markdown validator is sorted in
ascending line-number order for every fixed input (and, being a pure
function of the input, is stable across runs); the output of the java8 validator
is ordered pattern by pattern, not globally by line. -/
theorem c5_markdown_sorted (lines : List String) :
    List.Sorted (fun a b : MdError => a.line_num ≤ b.line_num) (mdValidate lines) :=
  mdSortErrors_sorted _

theorem skipSpecFrom_cons (prev i lv : Nat) (hs : List (Nat × Nat)) :
    skipSpecFrom prev ((i, lv) :: hs) =
      (if lv > prev + 1 then [i] else []) ++ skipSpecFrom lv hs := by
  simp only [skipSpecFrom, List.map_cons, List.zip_cons_cons, List.filterMap_cons]
  by_cases hgt : prev + 1 < lv <;> simp [hgt]

theorem chhGo_skips (lines : List String) :
    ∀ (i prev : Nat),
      mdSkipLines (chhGo i prev lines) = skipSpecFrom prev (headingsGo i lines) := by
  induction lines with
  | nil => intro i prev; rfl
  | cons l rest ih =>
    intro i prev
    simp only [chhGo, headingsGo]
    cases hm : headingMatch l with
    | none => exact ih (i + 1) prev
    | some pr =>
      obtain ⟨lv, title⟩ := pr
      rw [skipSpecFrom_cons, ← ih (i + 1) lv]
      simp only [mdSkipLines, List.filterMap_append]
      by_cases hgt : lv > prev + 1 <;>
        by_cases htc : (isTitleCase (pyStrip title) && lv ≤ 3) = true <;>
          simp [hgt, htc, List.filterMap_cons, mdSkipLines]

/-- C7: the heading scanner keeps a running previous level (0 initially,
updated after each heading); the `HEADING_SKIP` errors are anchored exactly
at the 1-based lines of headings whose level exceeds the preceding heading
level plus one (equal-or-lower transitions never produce one); in particular
`# Title` then `### Sub` yields exactly one `HEADING_SKIP` at line 2 and
`# Title`, `## Sub`, `### Sub2` yields none. -/
theorem c7_heading_skip :
    (∀ lines : List String,
      mdSkipLines (checkHeadingHierarchy lines) = skipSpec (headingsOf lines)) ∧
    checkHeadingHierarchy ["# Title\n", "### Sub\n"] =
      [⟨2, "HEADING_SKIP", mdSkipMsg 1 3⟩] ∧
    checkHeadingHierarchy ["# Title\n", "## Sub\n", "### Sub2\n"] = [] := by
  refine ⟨?_, by decide, by decide⟩
  intro lines
  exact chhGo_skips lines 1 0

theorem ccbGo_no_fence_false (post : List String) :
    ∀ (i startLine : Nat), (∀ x ∈ post, isFenceLine x = false) →
      ccbGo i false startLine post = [] := by
  induction post with
  | nil => intro i s _; rfl
  | cons l rest ih =>
    intro i s h
    have hl := h l (List.mem_cons_self l rest)
    simp only [ccbGo, hl]
    exact ih (i + 1) s (fun x hx => h x (List.mem_cons_of_mem l hx))

theorem ccbGo_no_fence_true (post : List String) :
    ∀ (i startLine : Nat), (∀ x ∈ post, isFenceLine x = false) →
      ccbGo i true startLine post =
        [⟨startLine, "CODE_BLOCK_UNCLOSED", mdUnclosedMsg⟩] := by
  induction post with
  | nil => intro i s _; rfl
  | cons l rest ih =>
    intro i s h
    have hl := h l (List.mem_cons_self l rest)
    simp only [ccbGo, hl]
    exact ih (i + 1) s (fun x hx => h x (List.mem_cons_of_mem l hx))

theorem ccbGo_pre (pre : List String) (rest : List String) :
    ∀ (i startLine : Nat), (∀ x ∈ pre, isFenceLine x = false) →
      ccbGo i false startLine (pre ++ rest) =
        ccbGo (i + pre.length) false startLine rest := by
  induction pre with
  | nil => intro i s _; simp
  | cons l t ih =>
    intro i s h
    have hl := h l (List.mem_cons_self l t)
    have step : ccbGo i false s ((l :: t) ++ rest) = ccbGo (i + 1) false s (t ++ rest) := by
      simp [ccbGo, hl]
    rw [step, ih (i + 1) s (fun x hx => h x (List.mem_cons_of_mem l hx))]
    have hlen : i + 1 + t.length = i + (l :: t).length := by
      simp [List.length_cons]
      omega
    rw [hlen]

/-- C8: a document with a single fence-marker line and hence an unmatched
opening fence produces exactly one `CODE_BLOCK_UNCLOSED` error, anchored at
the 1-based line of the opening fence. -/
theorem c8_unclosed_fence (pre post : List String) (l : String)
    (hpre : ∀ x ∈ pre, isFenceLine x = false)
    (hpost : ∀ x ∈ post, isFenceLine x = false)
    (hl : isFenceLine l = true) :
    (checkCodeBlocks (pre ++ l :: post)).filter
        (fun e => e.error_type == "CODE_BLOCK_UNCLOSED") =
      [⟨pre.length + 1, "CODE_BLOCK_UNCLOSED", mdUnclosedMsg⟩] := by
  unfold checkCodeBlocks
  rw [ccbGo_pre pre (l :: post) 1 0 hpre]
  have step : ccbGo (1 + pre.length) false 0 (l :: post) =
      (if pyStrip (String.mk ((pyStrip l).data.drop 3)) == "" then
        [⟨1 + pre.length, "CODE_BLOCK_LANG", mdLangMsg⟩] else []) ++
      ccbGo (1 + pre.length + 1) true (1 + pre.length) post := by
    simp only [ccbGo, hl, Bool.not_false, eq_self_iff_true, if_true]
  rw [step, ccbGo_no_fence_true post _ _ hpost]
  have h1 : (1 : Nat) + pre.length = pre.length + 1 := Nat.add_comm 1 pre.length
  rw [h1, List.filter_append]
  by_cases hfc : (pyStrip (String.mk ((pyStrip l).data.drop 3)) == "") = true <;>
    simp [hfc]

theorem c8_unclosed_fence_witness :
    (checkCodeBlocks (["hello\n"] ++ "```python\n" :: ["x\n"])).filter
        (fun e => e.error_type == "CODE_BLOCK_UNCLOSED") =
      [⟨2, "CODE_BLOCK_UNCLOSED", mdUnclosedMsg⟩] :=
  c8_unclosed_fence ["hello\n"] ["x\n"] "```python\n"
    (by decide) (by decide) (by decide)

theorem sourcePath_no_dup (fs : MpFS) (baseDir : String) (src : JVal) (pfx : String) :
    (mpValidateSourcePath fs baseDir src pfx).filter mpIsDup = [] := by
  unfold mpValidateSourcePath
  cases src <;> simp [mpIsDup, List.filter_append] <;> split_ifs <;> simp [mpIsDup]

theorem structure_no_dup (v : JVal) (e w : List MpError)
    (h : mpValidateStructure v = .ok (e, w)) : e.filter mpIsDup = [] := by
  unfold mpValidateStructure at h
  cases hk : pyContainsKey v "plugins" with
  | error er => rw [hk] at h; simp [Bind.bind, Except.bind] at h
  | ok b =>
    rw [hk] at h
    cases b with
    | false =>
      simp [Bind.bind, Except.bind] at h
      obtain ⟨h1, h2⟩ := h
      subst h1
      simp [mpIsDup]
    | true =>
      simp only [Bind.bind, Except.bind, Bool.not_true, Bool.false_eq_true, if_false] at h
      cases hsub : pySubscriptKey v "plugins" with
      | error er => rw [hsub] at h; simp at h
      | ok plugins =>
        rw [hsub] at h
        cases hk2 : pyContainsKey v "pluginRoot" with
        | error er => rw [hk2] at h; simp at h
        | ok b2 =>
          rw [hk2] at h
          cases b2 with
          | false =>
            simp at h
            obtain ⟨h1, h2⟩ := h
            subst h1
            split_ifs <;> simp [mpIsDup]
          | true =>
            simp only [if_true] at h
            cases hsub2 : pySubscriptKey v "pluginRoot" with
            | error er => rw [hsub2] at h; simp at h
            | ok pr =>
              rw [hsub2] at h
              cases pr
              case jstr sroot =>
                simp only [Except.ok.injEq] at h
                split at h <;>
                  (simp at h; obtain ⟨h1, h2⟩ := h; subst h1;
                   split_ifs <;> simp [mpIsDup])
              all_goals
                simp at h
                obtain ⟨h1, h2⟩ := h
                subst h1
                split_ifs <;> simp [mpIsDup, List.filter_append]

theorem c6core (fs : MpFS) (baseDir s1 s2 s3 : String) :
    mpPluginsGo fs baseDir 0 []
      [.jobj [("name", .jstr "a"), ("source", .jstr s1)],
       .jobj [("name", .jstr "b"), ("source", .jstr s2)],
       .jobj [("name", .jstr "a"), ("source", .jstr s3)]] =
    .ok (mpValidateSourcePath fs baseDir (.jstr s1) "plugins[0]" ++
         (mpValidateSourcePath fs baseDir (.jstr s2) "plugins[1]" ++
          ((⟨"error", "plugins[2].name", .duplicateName "a"⟩ : MpError) ::
            mpValidateSourcePath fs baseDir (.jstr s3) "plugins[2]")),
         []) := by
  simp [mpPluginsGo, mpNameChecks, pySetMem, mpKebabCheck, mpComponents,
    mpValidateComponentArray, jlookup, jvalBeq, pyStr, mpIdxPath,
    Bind.bind, Except.bind, isValidKebabCase]
  have e0 : ("plugins[" ++ toString 0 ++ "]" : String) = "plugins[0]" := by decide
  have e1 : ("plugins[" ++ toString 1 ++ "]" : String) = "plugins[1]" := by decide
  have e2 : ("plugins[" ++ toString 2 ++ "]" : String) = "plugins[2]" := by decide
  have e2n : ("plugins[2]" ++ ".name" : String) = "plugins[2].name" := by decide
  rw [e0, e1, e2, e2n]
  exact ⟨rfl, by decide⟩

/-- C6: a manifest whose plugins are named `a`, `b`, `a` (in that order)
produces exactly one duplicate-name Error, anchored at the second occurrence
of `a` (`plugins[2].name`); the first `a` and `b` yield no uniqueness
error. -/
theorem c6_duplicate_names (m : List (String × JVal)) (fs : MpFS)
    (baseDir mpPath s1 s2 s3 : String) (p : Bool) (errs warns : List MpError)
    (hp : jlookup "plugins" m =
      some (.jarr [.jobj [("name", .jstr "a"), ("source", .jstr s1)],
                   .jobj [("name", .jstr "b"), ("source", .jstr s2)],
                   .jobj [("name", .jstr "a"), ("source", .jstr s3)]]))
    (hrun : mpValidateRun mpPath (.ok (.jobj m)) fs baseDir = .ok (p, errs, warns)) :
    errs.filter mpIsDup = [⟨"error", "plugins[2].name", .duplicateName "a"⟩] := by
  have hpl : mpValidatePlugins fs baseDir (.jobj m) =
      .ok (mpValidateSourcePath fs baseDir (.jstr s1) "plugins[0]" ++
           (mpValidateSourcePath fs baseDir (.jstr s2) "plugins[1]" ++
            ((⟨"error", "plugins[2].name", .duplicateName "a"⟩ : MpError) ::
              mpValidateSourcePath fs baseDir (.jstr s3) "plugins[2]")), []) := by
    unfold mpValidatePlugins
    rw [show pyContainsKey (.jobj m) "plugins" = .ok true by simp [pyContainsKey, hp]]
    rw [show pySubscriptKey (.jobj m) "plugins" =
        .ok (.jarr [.jobj [("name", .jstr "a"), ("source", .jstr s1)],
                    .jobj [("name", .jstr "b"), ("source", .jstr s2)],
                    .jobj [("name", .jstr "a"), ("source", .jstr s3)]]) by
      simp [pySubscriptKey, hp]]
    simp only [Bind.bind, Except.bind, Bool.not_true, Bool.false_eq_true, if_false]
    exact c6core fs baseDir s1 s2 s3
  simp only [mpValidateRun] at hrun
  cases hs : mpValidateStructure (.jobj m) with
  | error e => rw [hs] at hrun; simp [Bind.bind, Except.bind] at hrun
  | ok pr1 =>
    obtain ⟨e1, w1⟩ := pr1
    rw [hs, hpl] at hrun
    simp [Bind.bind, Except.bind] at hrun
    obtain ⟨h1, h2, h3⟩ := hrun
    subst h2
    rw [List.filter_append, structure_no_dup _ _ _ hs, List.filter_append]
    simp [List.filter_append, sourcePath_no_dup, mpIsDup]

theorem c6_duplicate_names_witness :
    ([(⟨"error", "plugins[0].source", .sourceNotExist "./p"⟩ : MpError),
      ⟨"error", "plugins[1].source", .sourceNotExist "./p"⟩,
      ⟨"error", "plugins[2].name", .duplicateName "a"⟩,
      ⟨"error", "plugins[2].source", .sourceNotExist "./p"⟩].filter mpIsDup) =
      [⟨"error", "plugins[2].name", .duplicateName "a"⟩] :=
  c6_duplicate_names
    [("plugins", .jarr [.jobj [("name", .jstr "a"), ("source", .jstr "./p")],
                        .jobj [("name", .jstr "b"), ("source", .jstr "./p")],
                        .jobj [("name", .jstr "a"), ("source", .jstr "./p")]])]
    ⟨fun _ => false, fun _ => false⟩ "base" "m.json" "./p" "./p" "./p" false
    [⟨"error", "plugins[0].source", .sourceNotExist "./p"⟩,
     ⟨"error", "plugins[1].source", .sourceNotExist "./p"⟩,
     ⟨"error", "plugins[2].name", .duplicateName "a"⟩,
     ⟨"error", "plugins[2].source", .sourceNotExist "./p"⟩]
    [] rfl rfl
